import Mathlib

/-!
# TaskFlow — Task Crusher subsystem, verified model

A shallow embedding of the Task Crusher decomposition-and-tracking
subsystem of the TaskFlow app.  The client-side state machine
(`analyzeTask`, `toggleSubtaskSelection`, `createTaskGroup`) is
translated from the React Native screen source; the backend operations
(`materializeGroup` persistence, `completeSubtask` progress
aggregation), whose code is not part of this repository, are modelled
from the specification.
-/

set_option maxHeartbeats 1000000

namespace TaskFlow

/-- One candidate subtask proposed by the decomposition service.
Mirrors the `SubTaskSuggestion` interface of the client source. -/
structure SubTaskSuggestion where
  title : String
  description : String
  estimated_duration : Int
  priority : Int
  order : Int
  dependencies : List String
  selected : Bool
deriving DecidableEq

/-- Decomposition result returned by the analyze endpoint.
Mirrors the `TaskCrusherResponse` interface of the client source.
`ai_confidence` is a float in the source; modelled as a rational. -/
structure TaskCrusherResponse where
  main_task : String
  suggested_subtasks : List SubTaskSuggestion
  total_estimated_duration : Int
  completion_strategy : String
  ai_confidence : Rat
deriving DecidableEq

/-- An outbound HTTP request issued by the client screen.  The model
makes effects explicit: every client operation returns the list of
requests it issues. -/
inductive ApiRequest where
  | analyze (main_task : String) (description : String)
  | createGroup (body : TaskCrusherResponse)
  | fetchGroups
deriving DecidableEq

/-- JavaScript whitespace characters relevant to `String.trim`. -/
def isJsWhitespace (c : Char) : Bool :=
  c = ' ' ∨ c = '\t' ∨ c = '\n' ∨ c = '\r' ∨ c = '\x0b' ∨ c = '\x0c'

/-- Model of JavaScript `String.prototype.trim`: drops leading and
trailing whitespace. -/
def jsTrim (s : String) : String :=
  ⟨(s.data.dropWhile isJsWhitespace).reverse.dropWhile isJsWhitespace |>.reverse⟩

/-- Outcome of the `analyzeTask` client handler. -/
inductive AnalyzeOutcome where
  | validationError
  | serviceError
  | success (result : TaskCrusherResponse)
deriving DecidableEq

/-- The `analyzeTask` handler of the Task Crusher screen, translated
from the source: if `mainTask.trim()` is falsy it alerts and returns
without any request; otherwise it posts to the analyze endpoint and, on
a successful reply, marks every suggested subtask `selected := true`
before storing the result.  The external service's reply is passed in
as `serviceReply` (`none` models a failed / non-ok response). -/
def analyzeTask (mainTask description : String)
    (serviceReply : Option TaskCrusherResponse) :
    AnalyzeOutcome × List ApiRequest :=
  if (jsTrim mainTask).data.isEmpty then
    (.validationError, [])
  else
    match serviceReply with
    | none => (.serviceError, [.analyze mainTask description])
    | some data =>
        (.success { data with
            suggested_subtasks :=
              data.suggested_subtasks.map fun s => { s with selected := true } },
          [.analyze mainTask description])

/-- Flip the `selected` flag of the element at `index`, as the source's
`updatedSubtasks[index].selected = !updatedSubtasks[index].selected`
does for an in-range index. -/
def toggleList : Nat → List SubTaskSuggestion → List SubTaskSuggestion
  | _, [] => []
  | 0, s :: rest => { s with selected := !s.selected } :: rest
  | n + 1, s :: rest => s :: toggleList n rest

/-- The in-range toggle acting on a whole decomposition result. -/
def toggleAt (cr : TaskCrusherResponse) (index : Nat) : TaskCrusherResponse :=
  { cr with suggested_subtasks := toggleList index cr.suggested_subtasks }

/-- Result of the toggle handler.  An out-of-range index makes the
source throw (`undefined.selected`), modelled as `typeError`. -/
inductive ToggleResult where
  | ok (state : Option TaskCrusherResponse)
  | typeError
deriving DecidableEq

/-- The `toggleSubtaskSelection` handler translated from the source:
with no decomposition result present it returns immediately; otherwise
it flips the `selected` flag at `index` in a copied list and stores the
updated result.  It issues no request. -/
def toggleSubtaskSelection (state : Option TaskCrusherResponse)
    (index : Nat) : ToggleResult × List ApiRequest :=
  match state with
  | none => (.ok none, [])
  | some cr =>
      if index < cr.suggested_subtasks.length then
        (.ok (some (toggleAt cr index)), [])
      else
        (.typeError, [])

/-- The suggestions the client sends for materialization: exactly those
with `selected = true` (the source's `filter(subtask => subtask.selected)`). -/
def selectedOf (r : TaskCrusherResponse) : List SubTaskSuggestion :=
  r.suggested_subtasks.filter (·.selected)

/-- Outcome of the `createTaskGroup` client handler. -/
inductive CreateGroupOutcome where
  | noResult
  | emptySelection
  | requested (body : TaskCrusherResponse)
deriving DecidableEq

/-- The `createTaskGroup` handler translated from the source: with no
decomposition result present it returns immediately; with zero selected
suggestions it alerts and returns without any request; otherwise it
posts the result restricted to the selected suggestions to the
create-group endpoint. -/
def createTaskGroup (state : Option TaskCrusherResponse) :
    CreateGroupOutcome × List ApiRequest :=
  match state with
  | none => (.noResult, [])
  | some cr =>
      let body := { cr with suggested_subtasks := selectedOf cr }
      if (selectedOf cr).length = 0 then
        (.emptySelection, [])
      else
        (.requested body, [.createGroup body])

/-- Modelled from the spec: the persisted `Subtask` record of the
backend (absent from this repository's source).  Fields are copied from
the selected suggestion at materialization time; `dependencies` holds
resolved subtask identifiers. -/
structure Subtask where
  id : Nat
  groupId : Nat
  title : String
  description : String
  estimated_duration : Int
  priority : Int
  order : Int
  dependencies : List Nat
  completed : Bool
deriving DecidableEq

/-- Modelled from the spec: the persisted `TaskGroup` record of the
backend (absent from this repository's source).  `progress_percentage`
is a float in the spec; modelled as a rational. -/
structure TaskGroup where
  id : Nat
  main_task_title : String
  category : String
  total_subtasks : Nat
  completed_subtasks : Nat
  progress_percentage : Rat
  is_active : Bool
deriving DecidableEq

/-- Modelled from the spec: the durable persistence store of the
backend, with an identifier counter providing per-record ids. -/
structure Store where
  groups : List TaskGroup
  subtasks : List Subtask
  nextId : Nat
deriving DecidableEq

/-- Modelled from the spec: dependency resolution at materialization.
Each string reference is mapped to the newly created identifier of the
other selected suggestion of the same batch bearing that title; a
reference that resolves to no selected suggestion (or only to the
suggestion itself) is dropped silently. -/
def resolveDeps (base : Nat) (sel : List SubTaskSuggestion) (selfIdx : Nat)
    (deps : List String) : List Nat :=
  deps.filterMap fun d =>
    match sel.findIdx? (·.title = d) with
    | some j => if j = selfIdx then none else some (base + j)
    | none => none

/-- Modelled from the spec: build one persisted `Subtask` from a
selected suggestion, preserving its `title`, `description`,
`estimatedDurationMinutes`, `priority` and `order`, with
`completed = false`. -/
def mkSubtask (gid base : Nat) (sel : List SubTaskSuggestion) (idx : Nat)
    (s : SubTaskSuggestion) : Subtask :=
  { id := base + idx
    groupId := gid
    title := s.title
    description := s.description
    estimated_duration := s.estimated_duration
    priority := s.priority
    order := s.order
    dependencies := resolveDeps base sel idx s.dependencies
    completed := false }

/-- Modelled from the spec: the persisted subtasks of one
materialization batch, one per selected suggestion, in the selected
suggestions' list order. -/
def mkSubtasks (gid base : Nat) (sel : List SubTaskSuggestion) (idx : Nat) :
    List SubTaskSuggestion → List Subtask
  | [] => []
  | s :: rest => mkSubtask gid base sel idx s :: mkSubtasks gid base sel (idx + 1) rest

/-- The subtask records a successful materialization of `r` appends to
`store`. -/
def newSubtasks (store : Store) (r : TaskCrusherResponse) : List Subtask :=
  mkSubtasks store.nextId (store.nextId + 1) (selectedOf r) 0 (selectedOf r)

/-- The group record a successful materialization of `r` appends to
`store`. -/
def newGroup (store : Store) (r : TaskCrusherResponse) : TaskGroup :=
  { id := store.nextId
    main_task_title := r.main_task
    category := "personal"
    total_subtasks := (selectedOf r).length
    completed_subtasks := 0
    progress_percentage := 0
    is_active := true }

/-- Errors of the materializer. -/
inductive MaterializeError where
  | emptySelection
  | persistence
deriving DecidableEq

/-- Modelled from the spec: the Task Group Materializer of the backend
(absent from this repository's source).  Fails with
`EmptySelectionError` if no suggestion is selected, before any
persistence attempt.  Otherwise performs one atomic multi-record
insert of the group and its subtasks; `persistOk = false` simulates a
persistence failure mid-batch, which leaves the store untouched.  On
success returns the new group identifier and the count of subtasks
created. -/
def materializeGroup (store : Store) (r : TaskCrusherResponse)
    (persistOk : Bool) : Except MaterializeError (Nat × Nat) × Store :=
  if (selectedOf r).length = 0 then
    (.error .emptySelection, store)
  else if persistOk then
    (.ok (store.nextId, (selectedOf r).length),
      { groups := store.groups ++ [newGroup store r]
        subtasks := store.subtasks ++ newSubtasks store r
        nextId := store.nextId + 1 + (selectedOf r).length })
  else
    (.error .persistence, store)

/-- Errors of the progress aggregator. -/
inductive CompleteError where
  | notFound
deriving DecidableEq

/-- Modelled from the spec: the Progress Aggregator's `completeSubtask`
operation of the backend (absent from this repository's source).  Fails
with `NotFoundError` on an unknown id; is an idempotent no-op on an
already completed subtask (the spec's recommended policy); on first
completion sets `completed := true`, increments the owning group's
`completedSubtasks`, recomputes `progressPercentage` and clears
`isActive` when the group is fully complete. -/
def completeSubtask (store : Store) (sid : Nat) :
    Except CompleteError Store :=
  match store.subtasks.find? (·.id = sid) with
  | none => .error .notFound
  | some st =>
      if st.completed then .ok store
      else
        .ok
          { store with
            subtasks := store.subtasks.map fun s =>
              if s.id = sid then { s with completed := true } else s
            groups := store.groups.map fun g =>
              if g.id = st.groupId then
                { g with
                  completed_subtasks := g.completed_subtasks + 1
                  progress_percentage :=
                    100 * ((g.completed_subtasks + 1 : Nat) : Rat) /
                      ((g.total_subtasks : Nat) : Rat)
                  is_active := g.completed_subtasks + 1 < g.total_subtasks }
              else g }

/-- `completeSubtask` as a total state transition: a failed call leaves
the store unchanged. -/
def completeStep (store : Store) (sid : Nat) : Store :=
  match completeSubtask store sid with
  | .ok s => s
  | .error _ => store

/-- A sequence of completion calls applied in order. -/
def applyCompletions (store : Store) (sids : List Nat) : Store :=
  sids.foldl completeStep store

/-- Number of persisted subtasks owned by group `gid`. -/
def countIn (gid : Nat) (subs : List Subtask) : Nat :=
  (subs.filter fun s => s.groupId = gid).length

/-- Number of completed persisted subtasks owned by group `gid`. -/
def countDone (gid : Nat) (subs : List Subtask) : Nat :=
  (subs.filter fun s => decide (s.groupId = gid) && s.completed).length

/-- The per-group aggregation invariant: the stored counters agree with
the owned subtask records and the percentage is derived from them. -/
def GroupInv (subs : List Subtask) (g : TaskGroup) : Prop :=
  g.total_subtasks = countIn g.id subs ∧
  g.completed_subtasks = countDone g.id subs ∧
  g.progress_percentage =
    100 * (g.completed_subtasks : Rat) / (g.total_subtasks : Rat)

/-- Store-wide aggregation invariant. -/
def Inv (store : Store) : Prop :=
  ∀ g ∈ store.groups, GroupInv store.subtasks g

/-- Well-formedness: persisted subtask identifiers are unique. -/
def WF (store : Store) : Prop :=
  (store.subtasks.map (·.id)).Nodup

/-- Pick the `selected` flags of `target` pointwise. -/
def setSelections (target : List Bool) (l : List SubTaskSuggestion) :
    List SubTaskSuggestion :=
  List.zipWith (fun b s => { s with selected := b }) target l

/-! ## Basic lemmas -/

lemma jsTrim_empty_of_whitespace (s : String)
    (h : ∀ c ∈ s.data, isJsWhitespace c) : (jsTrim s).data.isEmpty := by
  have h1 : s.data.dropWhile isJsWhitespace = [] :=
    List.dropWhile_eq_nil_iff.mpr h
  simp [jsTrim, h1]

lemma selectedOf_eq_nil (cr : TaskCrusherResponse)
    (h : ∀ s ∈ cr.suggested_subtasks, s.selected = false) :
    selectedOf cr = [] := by
  simp only [selectedOf, List.filter_eq_nil_iff]
  intro s hs
  simp [h s hs]

/-! ## Sample data used by witnesses -/

/-- A concrete suggestion arriving unselected from the service. -/
def sampleSuggestion : SubTaskSuggestion :=
  { title := "draft outline"
    description := "first step"
    estimated_duration := 30
    priority := 2
    order := 0
    dependencies := []
    selected := false }

/-- A concrete decomposition result whose only suggestion is unselected. -/
def sampleResponse : TaskCrusherResponse :=
  { main_task := "write a report"
    suggested_subtasks := [sampleSuggestion]
    total_estimated_duration := 30
    completion_strategy := "sequential"
    ai_confidence := 4/5 }

/-- The empty persistence store. -/
def emptyStore : Store := { groups := [], subtasks := [], nextId := 0 }

/-! ## Claim theorems: client-side handlers -/

/-- C7: `requestDecomposition` fails with `ValidationError` whenever the
request's `mainTask` is empty or whitespace-only; in that case no call
to the external decomposition service is made (no request is issued),
so nothing reaches persistence. -/
theorem requestDecomposition_validation (mainTask description : String)
    (reply : Option TaskCrusherResponse)
    (h : ∀ c ∈ mainTask.data, isJsWhitespace c) :
    analyzeTask mainTask description reply = (.validationError, []) := by
  have h1 := jsTrim_empty_of_whitespace mainTask h
  simp [analyzeTask, h1]

/-- Witness for C7 at the whitespace-only input `" \t"`. -/
theorem requestDecomposition_validation_witness :
    analyzeTask " \t" "d" none = (.validationError, []) :=
  requestDecomposition_validation " \t" "d" none (by decide)

/-- C8: every successful decomposition returns a result in which every
suggestion's `selected` flag is `true`, regardless of the value
supplied by the external service. -/
theorem decomposition_selected_default (m d : String)
    (data out : TaskCrusherResponse) (reqs : List ApiRequest)
    (h : analyzeTask m d (some data) = (.success out, reqs)) :
    ∀ s ∈ out.suggested_subtasks, s.selected = true := by
  unfold analyzeTask at h
  split at h
  · simp at h
  · rw [Prod.mk.injEq] at h
    obtain ⟨h1, -⟩ := h
    injection h1 with h2
    subst h2
    intro s hs
    simp only [List.mem_map] at hs
    obtain ⟨x, -, rfl⟩ := hs
    rfl

/-- Witness for C8: the sample service reply carries `selected = false`,
yet the stored suggestion has it `true`. -/
theorem decomposition_selected_default_witness :
    ({ sampleSuggestion with selected := true } : SubTaskSuggestion).selected
      = true :=
  decomposition_selected_default "write a report" "" sampleResponse
    { sampleResponse with
      suggested_subtasks := sampleResponse.suggested_subtasks.map
        fun s => { s with selected := true } }
    [.analyze "write a report" ""] rfl
    { sampleSuggestion with selected := true } (by decide)

/-- C10: with no decomposition result present (candidate state `null`),
both `toggleSelection` and `materializeGroup`'s client handler return
immediately: they change no state and issue no request, for every index
argument. -/
theorem null_state_noop (index : Nat) :
    toggleSubtaskSelection none index = (.ok none, []) ∧
    createTaskGroup none = (.noResult, []) :=
  ⟨rfl, rfl⟩

/-- C4: materializing a result in which every suggestion is unselected
always fails with `EmptySelectionError` and persists nothing: the
client issues no request, and the materializer rejects before any
persistence attempt, leaving the store untouched. -/
theorem empty_selection_rejected (cr : TaskCrusherResponse) (store : Store)
    (persistOk : Bool)
    (h : ∀ s ∈ cr.suggested_subtasks, s.selected = false) :
    createTaskGroup (some cr) = (.emptySelection, []) ∧
    materializeGroup store cr persistOk = (.error .emptySelection, store) := by
  have h0 := selectedOf_eq_nil cr h
  refine ⟨?_, ?_⟩
  · simp [createTaskGroup, h0]
  · simp [materializeGroup, h0]

/-- Witness for C4 at the sample all-unselected result. -/
theorem empty_selection_rejected_witness :
    createTaskGroup (some sampleResponse) = (.emptySelection, []) ∧
    materializeGroup emptyStore sampleResponse true
      = (.error .emptySelection, emptyStore) :=
  empty_selection_rejected sampleResponse emptyStore true (by decide)

/-! ## Materializer lemmas -/

lemma mkSubtasks_length (gid base : Nat) (sel : List SubTaskSuggestion) :
    ∀ (l : List SubTaskSuggestion) (idx : Nat),
      (mkSubtasks gid base sel idx l).length = l.length
  | [], _ => rfl
  | s :: rest, idx => by
      simp [mkSubtasks, mkSubtasks_length gid base sel rest (idx + 1)]

lemma mkSubtasks_groupId (gid base : Nat) (sel : List SubTaskSuggestion)
    (l : List SubTaskSuggestion) (idx : Nat) :
    ∀ st ∈ mkSubtasks gid base sel idx l, st.groupId = gid := by
  induction l generalizing idx with
  | nil => intro st hst; simp [mkSubtasks] at hst
  | cons s rest ih =>
      intro st hst
      rcases List.mem_cons.mp hst with hst | hst
      · subst hst; rfl
      · exact ih (idx + 1) st hst

lemma mkSubtasks_map_fields (gid base : Nat) (sel : List SubTaskSuggestion) :
    ∀ (l : List SubTaskSuggestion) (idx : Nat),
      (mkSubtasks gid base sel idx l).map
          (fun st => (st.title, st.description, st.estimated_duration,
            st.priority, st.order))
        = l.map (fun s => (s.title, s.description, s.estimated_duration,
            s.priority, s.order))
  | [], _ => rfl
  | s :: rest, idx => by
      simp [mkSubtasks, mkSubtask,
        mkSubtasks_map_fields gid base sel rest (idx + 1)]

lemma mkSubtasks_map_order (gid base : Nat) (sel : List SubTaskSuggestion) :
    ∀ (l : List SubTaskSuggestion) (idx : Nat),
      (mkSubtasks gid base sel idx l).map (·.order) = l.map (·.order)
  | [], _ => rfl
  | s :: rest, idx => by
      simp [mkSubtasks, mkSubtask,
        mkSubtasks_map_order gid base sel rest (idx + 1)]

/-! ## Claim theorems: materializer -/

/-- C1: materialization is all-or-nothing.  With at least one selected
suggestion, `materializeGroup` either durably persists exactly one new
`TaskGroup` whose `totalSubtasks` equals the selected count together
with exactly that many new `Subtask` records all owned by it, or — when
persistence fails mid-batch — persists nothing at all, leaving the
store exactly as it was. -/
theorem materializeGroup_atomic (store : Store) (r : TaskCrusherResponse)
    (persistOk : Bool) (h : (selectedOf r).length ≠ 0) :
    (persistOk = true →
      materializeGroup store r persistOk =
        (.ok (store.nextId, (selectedOf r).length),
          { groups := store.groups ++ [newGroup store r]
            subtasks := store.subtasks ++ newSubtasks store r
            nextId := store.nextId + 1 + (selectedOf r).length }) ∧
      (newGroup store r).total_subtasks = (selectedOf r).length ∧
      (newSubtasks store r).length = (selectedOf r).length ∧
      ∀ st ∈ newSubtasks store r, st.groupId = (newGroup store r).id) ∧
    (persistOk = false →
      materializeGroup store r persistOk = (.error .persistence, store)) := by
  constructor
  · rintro rfl
    refine ⟨by simp [materializeGroup, h], rfl, ?_, ?_⟩
    · exact mkSubtasks_length _ _ _ _ _
    · exact mkSubtasks_groupId _ _ _ _ _
  · rintro rfl
    simp [materializeGroup, h]

/-- C3: the materializer turns exactly the `selected = true` suggestions
into persisted subtasks; the created group has
`totalSubtasks = count(selected)` and `completedSubtasks = 0`, and each
created subtask preserves its source suggestion's `title`,
`description`, `estimatedDurationMinutes`, `priority` and `order`. -/
theorem materializeGroup_post (store : Store) (r : TaskCrusherResponse)
    (h : (selectedOf r).length ≠ 0) :
    selectedOf r = r.suggested_subtasks.filter (fun s => s.selected = true) ∧
    (materializeGroup store r true).2.groups
      = store.groups ++ [newGroup store r] ∧
    (newGroup store r).total_subtasks = (selectedOf r).length ∧
    (newGroup store r).completed_subtasks = 0 ∧
    (materializeGroup store r true).2.subtasks
      = store.subtasks ++ newSubtasks store r ∧
    (newSubtasks store r).map
        (fun st => (st.title, st.description, st.estimated_duration,
          st.priority, st.order))
      = (selectedOf r).map (fun s => (s.title, s.description,
          s.estimated_duration, s.priority, s.order)) := by
  refine ⟨by simp [selectedOf], ?_, rfl, rfl, ?_, ?_⟩
  · simp [materializeGroup, h]
  · simp [materializeGroup, h]
  · exact mkSubtasks_map_fields _ _ _ _ _

/-- C6: within one materialization the subtask creation order matches
the selected suggestions' list order (their `order` fields are copied
unchanged, in order), and — given the spec's invariant that the
response's `order` fields are ascending — the created subtasks appear
in ascending `order`, i.e. in the same relative order as their source
suggestions' `order` field; the store receives them in exactly that
order. -/
theorem materializeGroup_order (store : Store) (r : TaskCrusherResponse)
    (h : (selectedOf r).length ≠ 0)
    (hmono : r.suggested_subtasks.Pairwise (fun a b => a.order ≤ b.order)) :
    (newSubtasks store r).map (·.order) = (selectedOf r).map (·.order) ∧
    (newSubtasks store r).Pairwise (fun a b => a.order ≤ b.order) ∧
    (materializeGroup store r true).2.subtasks
      = store.subtasks ++ newSubtasks store r := by
  have hmap : (newSubtasks store r).map (·.order)
      = (selectedOf r).map (·.order) := mkSubtasks_map_order _ _ _ _ _
  refine ⟨hmap, ?_, by simp [materializeGroup, h]⟩
  have hsel : (selectedOf r).Pairwise (fun a b => a.order ≤ b.order) :=
    hmono.filter _
  have h1 : ((selectedOf r).map (·.order)).Pairwise (· ≤ ·) :=
    List.pairwise_map.mpr hsel
  have h2 : ((newSubtasks store r).map (·.order)).Pairwise (· ≤ ·) := by
    rw [hmap]; exact h1
  exact List.pairwise_map.mp h2

/-! ## Sample data with selected suggestions -/

/-- A concrete decomposition result with two selected suggestions and
one deselected one, orders ascending. -/
def sampleSelResponse : TaskCrusherResponse :=
  { main_task := "plan a trip"
    suggested_subtasks :=
      [{ title := "book flight", description := "compare fares"
         estimated_duration := 60, priority := 1, order := 0
         dependencies := [], selected := true },
       { title := "book hotel", description := "near the center"
         estimated_duration := 45, priority := 2, order := 1
         dependencies := ["book flight"], selected := false },
       { title := "pack bags", description := "light"
         estimated_duration := 30, priority := 3, order := 2
         dependencies := [], selected := true }]
    total_estimated_duration := 135
    completion_strategy := "sequential"
    ai_confidence := 9/10 }

/-- Witness for C1 at the sample response over the empty store. -/
theorem materializeGroup_atomic_witness :
    (true = true →
      materializeGroup emptyStore sampleSelResponse true =
        (.ok (emptyStore.nextId, (selectedOf sampleSelResponse).length),
          { groups := emptyStore.groups ++ [newGroup emptyStore sampleSelResponse]
            subtasks := emptyStore.subtasks ++ newSubtasks emptyStore sampleSelResponse
            nextId := emptyStore.nextId + 1
              + (selectedOf sampleSelResponse).length }) ∧
      (newGroup emptyStore sampleSelResponse).total_subtasks
        = (selectedOf sampleSelResponse).length ∧
      (newSubtasks emptyStore sampleSelResponse).length
        = (selectedOf sampleSelResponse).length ∧
      ∀ st ∈ newSubtasks emptyStore sampleSelResponse,
        st.groupId = (newGroup emptyStore sampleSelResponse).id) ∧
    (true = false →
      materializeGroup emptyStore sampleSelResponse true
        = (.error .persistence, emptyStore)) :=
  materializeGroup_atomic emptyStore sampleSelResponse true (by decide)

/-- Witness for C3 at the sample response over the empty store. -/
theorem materializeGroup_post_witness :
    selectedOf sampleSelResponse
      = sampleSelResponse.suggested_subtasks.filter (fun s => s.selected = true) ∧
    (materializeGroup emptyStore sampleSelResponse true).2.groups
      = emptyStore.groups ++ [newGroup emptyStore sampleSelResponse] ∧
    (newGroup emptyStore sampleSelResponse).total_subtasks
      = (selectedOf sampleSelResponse).length ∧
    (newGroup emptyStore sampleSelResponse).completed_subtasks = 0 ∧
    (materializeGroup emptyStore sampleSelResponse true).2.subtasks
      = emptyStore.subtasks ++ newSubtasks emptyStore sampleSelResponse ∧
    (newSubtasks emptyStore sampleSelResponse).map
        (fun st => (st.title, st.description, st.estimated_duration,
          st.priority, st.order))
      = (selectedOf sampleSelResponse).map (fun s => (s.title, s.description,
          s.estimated_duration, s.priority, s.order)) :=
  materializeGroup_post emptyStore sampleSelResponse (by decide)

/-- Witness for C6 at the sample response over the empty store. -/
theorem materializeGroup_order_witness :
    (newSubtasks emptyStore sampleSelResponse).map (·.order)
      = (selectedOf sampleSelResponse).map (·.order) ∧
    (newSubtasks emptyStore sampleSelResponse).Pairwise
      (fun a b => a.order ≤ b.order) ∧
    (materializeGroup emptyStore sampleSelResponse true).2.subtasks
      = emptyStore.subtasks ++ newSubtasks emptyStore sampleSelResponse :=
  materializeGroup_order emptyStore sampleSelResponse (by decide) (by decide)

/-! ## Progress aggregator lemmas -/

lemma flip_groupId (sid : Nat) (s : Subtask) :
    (if s.id = sid then { s with completed := true } else s).groupId
      = s.groupId := by
  split <;> rfl

lemma flip_id (sid : Nat) (s : Subtask) :
    (if s.id = sid then { s with completed := true } else s).id = s.id := by
  split <;> rfl

lemma countIn_flip (gid sid : Nat) (subs : List Subtask) :
    countIn gid (subs.map fun s =>
      if s.id = sid then { s with completed := true } else s)
      = countIn gid subs := by
  simp only [countIn, ← List.countP_eq_length_filter, List.countP_map]
  refine List.countP_congr fun s _ => ?_
  simp [Function.comp, flip_groupId]

lemma countDone_flip (gid sid : Nat) (subs : List Subtask) (st : Subtask)
    (hfind : subs.find? (·.id = sid) = some st)
    (hnc : st.completed = false)
    (hnd : (subs.map (·.id)).Nodup) :
    countDone gid (subs.map fun s =>
        if s.id = sid then { s with completed := true } else s)
      = countDone gid subs + (if st.groupId = gid then 1 else 0) := by
  induction subs with
  | nil => simp at hfind
  | cons s rest ih =>
      rw [List.map_cons, List.nodup_cons] at hnd
      by_cases hs : s.id = sid
      · rw [List.find?_cons_of_pos rest (by simpa using hs)] at hfind
        injection hfind with hst
        subst hst
        have hrest : rest.map (fun s =>
            if s.id = sid then { s with completed := true } else s) = rest := by
          refine (List.map_congr_left fun x hx => ?_).trans rest.map_id
          have : x.id ≠ sid := fun hxid => hnd.1 (hs ▸ hxid ▸ List.mem_map_of_mem (·.id) hx)
          simp [this]
        rw [List.map_cons, hrest]
        simp only [countDone, List.filter_cons, if_pos hs, hnc]
        by_cases hg : s.groupId = gid <;> simp [hg, Nat.add_comm]
      · rw [List.find?_cons_of_neg rest (by simpa using hs)] at hfind
        have hrec := ih hfind hnd.2
        rw [List.map_cons]
        simp only [countDone, List.filter_cons, if_neg hs] at hrec ⊢
        by_cases hg : (decide (s.groupId = gid) && s.completed) = true
        all_goals simp [hg, hrec]
        all_goals omega

lemma countDone_le_countIn (gid : Nat) (subs : List Subtask) :
    countDone gid subs ≤ countIn gid subs := by
  simp only [countDone, countIn, ← List.countP_eq_length_filter]
  refine List.countP_mono_left fun s _ h => ?_
  simp only [Bool.and_eq_true] at h
  exact h.1

lemma find?_id_map_flip (sid : Nat) (subs : List Subtask) :
    (subs.map fun s =>
        if s.id = sid then { s with completed := true } else s).find?
        (·.id = sid)
      = (subs.find? (·.id = sid)).map fun s =>
          if s.id = sid then { s with completed := true } else s := by
  induction subs with
  | nil => rfl
  | cons s rest ih =>
      by_cases hs : s.id = sid
      · rw [List.map_cons,
          List.find?_cons_of_pos _ (by simp [flip_id, hs]),
          List.find?_cons_of_pos _ (by simpa using hs)]
        rfl
      · rw [List.map_cons,
          List.find?_cons_of_neg _ (by simp [flip_id, hs]),
          List.find?_cons_of_neg _ (by simpa using hs)]
        exact ih

lemma completeStep_preserves (store : Store) (sid : Nat)
    (hwf : WF store) (hinv : Inv store) :
    WF (completeStep store sid) ∧ Inv (completeStep store sid) := by
  unfold completeStep completeSubtask
  cases hfind : store.subtasks.find? (·.id = sid) with
  | none => exact ⟨hwf, hinv⟩
  | some st =>
      by_cases hc : st.completed
      · simp only [hc, if_true]
        exact ⟨hwf, hinv⟩
      · have hnc : st.completed = false := Bool.not_eq_true _ |>.mp hc
        simp only [hc, if_false, Bool.false_eq_true]
        constructor
        · unfold WF
          simp only [List.map_map]
          have : ((fun s : Subtask => s.id) ∘ fun s =>
              if s.id = sid then { s with completed := true } else s)
              = fun s : Subtask => s.id := by
            funext s
            simp [Function.comp, flip_id]
          rw [this]
          exact hwf
        · intro g' hg'
          simp only [List.mem_map] at hg'
          obtain ⟨g, hg, rfl⟩ := hg'
          obtain ⟨ht, hcnt, hp⟩ := hinv g hg
          have h2 := countDone_flip g.id sid store.subtasks st hfind hnc hwf
          by_cases hgid : g.id = st.groupId
          · rw [if_pos hgid]
            rw [if_pos hgid.symm] at h2
            refine ⟨?_, ?_, ?_⟩
            · simpa [countIn_flip] using ht
            · simpa [h2] using hcnt
            · push_cast
              rfl
          · rw [if_neg hgid]
            rw [if_neg (fun h => hgid h.symm)] at h2
            refine ⟨?_, ?_, ?_⟩
            · simpa [countIn_flip] using ht
            · simpa [h2] using hcnt
            · exact hp

lemma applyCompletions_preserves (sids : List Nat) :
    ∀ store : Store, WF store → Inv store →
      WF (applyCompletions store sids) ∧ Inv (applyCompletions store sids) := by
  induction sids with
  | nil => exact fun store hw hi => ⟨hw, hi⟩
  | cons sid rest ih =>
      intro store hw hi
      have h1 := completeStep_preserves store sid hw hi
      simpa [applyCompletions] using ih (completeStep store sid) h1.1 h1.2

/-! ## Claim theorems: progress aggregator -/

/-- C2: for every well-formed store satisfying the aggregation invariant
and every sequence of `completeSubtask` calls, after the calls (hence,
by instantiating with any prefix, after each call) every group's
`progressPercentage` equals `100 * completedSubtasks / totalSubtasks`
and `0 ≤ completedSubtasks ≤ totalSubtasks` (the lower bound holding
since the counter is a natural number). -/
theorem progress_invariant (store : Store) (sids : List Nat)
    (hwf : WF store) (hinv : Inv store) :
    ∀ g ∈ (applyCompletions store sids).groups,
      g.progress_percentage
        = 100 * (g.completed_subtasks : Rat) / (g.total_subtasks : Rat) ∧
      g.completed_subtasks ≤ g.total_subtasks := by
  obtain ⟨-, hi⟩ := applyCompletions_preserves sids store hwf hinv
  intro g hg
  obtain ⟨ht, hc, hp⟩ := hi g hg
  refine ⟨hp, ?_⟩
  rw [ht, hc]
  exact countDone_le_countIn _ _

/-- C5: completing a subtask is idempotent — calling `completeSubtask`
twice on the same id leaves exactly the persisted state one call
produces (in particular, the same `completedSubtasks` count), for every
store and every id, existing or not. -/
theorem completeSubtask_idempotent (store : Store) (sid : Nat) :
    completeStep (completeStep store sid) sid = completeStep store sid := by
  unfold completeStep completeSubtask
  cases hfind : store.subtasks.find? (·.id = sid) with
  | none => simp [hfind]
  | some st =>
      by_cases hc : st.completed
      · simp [hfind, hc]
      · have hsid : st.id = sid := by
          have := List.find?_some hfind
          simpa using this
        simp only [hc, if_false, Bool.false_eq_true]
        rw [find?_id_map_flip, hfind]
        simp [hsid]

/-- A concrete store with one group of two pending subtasks, satisfying
the aggregation invariant. -/
def sampleStore : Store :=
  { groups :=
      [{ id := 0, main_task_title := "plan a trip", category := "personal"
         total_subtasks := 2, completed_subtasks := 0
         progress_percentage := 0, is_active := true }]
    subtasks :=
      [{ id := 1, groupId := 0, title := "book flight", description := ""
         estimated_duration := 60, priority := 1, order := 0
         dependencies := [], completed := false },
       { id := 2, groupId := 0, title := "pack bags", description := ""
         estimated_duration := 30, priority := 3, order := 1
         dependencies := [], completed := false }]
    nextId := 3 }

/-- The sample group after both of its subtasks complete. -/
def sampleFinalGroup : TaskGroup :=
  { id := 0, main_task_title := "plan a trip", category := "personal"
    total_subtasks := 2, completed_subtasks := 2
    progress_percentage := 100, is_active := false }

/-- Witness for C2: completing both subtasks of the sample store yields
a group satisfying the progress invariant. -/
theorem progress_invariant_witness :
    sampleFinalGroup.progress_percentage
      = 100 * (sampleFinalGroup.completed_subtasks : Rat)
        / (sampleFinalGroup.total_subtasks : Rat) ∧
    sampleFinalGroup.completed_subtasks ≤ sampleFinalGroup.total_subtasks :=
  progress_invariant sampleStore [1, 2] (by unfold WF; decide)
    (by
      unfold Inv GroupInv
      intro g hg
      simp only [sampleStore, List.mem_singleton] at hg
      subst hg
      refine ⟨by simp [countIn, sampleStore], by simp [countDone, sampleStore],
        by norm_num⟩)
    sampleFinalGroup
    (by
      have h : (applyCompletions sampleStore [1, 2]).groups
          = [sampleFinalGroup] := by
        norm_num [applyCompletions, completeStep, completeSubtask, sampleStore,
          sampleFinalGroup, List.find?]
      rw [h]
      exact List.mem_singleton.mpr rfl)

/-! ## Selection-toggle lemmas -/

lemma toggleList_get?_self (i : Nat) (l : List SubTaskSuggestion) :
    (toggleList i l).get? i
      = (l.get? i).map fun s => { s with selected := !s.selected } := by
  induction l generalizing i with
  | nil =>
      cases i with
      | zero => rfl
      | succ n => rfl
  | cons s rest ih =>
      cases i with
      | zero => rfl
      | succ n => simpa [toggleList] using ih n

lemma toggleList_get?_other (i j : Nat) (l : List SubTaskSuggestion)
    (h : j ≠ i) : (toggleList i l).get? j = l.get? j := by
  induction l generalizing i j with
  | nil =>
      cases i with
      | zero => rfl
      | succ n => rfl
  | cons s rest ih =>
      cases i with
      | zero =>
          cases j with
          | zero => exact absurd rfl h
          | succ m => rfl
      | succ n =>
          cases j with
          | zero => rfl
          | succ m => simpa [toggleList] using ih n m fun hm => h (by omega)

lemma foldl_toggle_shift (ixs : List Nat) :
    ∀ (s : SubTaskSuggestion) (rest : List SubTaskSuggestion),
      (ixs.map (· + 1)).foldl (fun acc i => toggleList i acc) (s :: rest)
        = s :: ixs.foldl (fun acc i => toggleList i acc) rest := by
  induction ixs with
  | nil => intro s rest; rfl
  | cons i tl ih =>
      intro s rest
      simp only [List.map_cons, List.foldl_cons]
      have h1 : toggleList (i + 1) (s :: rest) = s :: toggleList i rest := rfl
      rw [h1, ih]

lemma reach_setSelections :
    ∀ (l : List SubTaskSuggestion) (target : List Bool),
      target.length = l.length →
      ∃ ixs : List Nat,
        ixs.foldl (fun acc i => toggleList i acc) l = setSelections target l := by
  intro l
  induction l with
  | nil =>
      intro target ht
      refine ⟨[], ?_⟩
      cases target with
      | nil => rfl
      | cons b bt => simp at ht
  | cons s rest ih =>
      intro target ht
      cases target with
      | nil => simp at ht
      | cons b bt =>
          obtain ⟨ixs', hixs⟩ := ih bt (by simpa using ht)
          by_cases hb : s.selected = b
          · refine ⟨ixs'.map (· + 1), ?_⟩
            rw [foldl_toggle_shift, hixs]
            simp [setSelections, ← hb]
          · refine ⟨0 :: ixs'.map (· + 1), ?_⟩
            simp only [List.foldl_cons]
            have h0 : toggleList 0 (s :: rest)
                = { s with selected := !s.selected } :: rest := rfl
            rw [h0, foldl_toggle_shift, hixs]
            have hflip : (!s.selected) = b := by
              cases hsel : s.selected <;> cases b <;> simp_all
            simp [setSelections, hflip]

lemma foldl_toggleAt_eq (ixs : List Nat) :
    ∀ cr : TaskCrusherResponse,
      ixs.foldl toggleAt cr
        = { cr with suggested_subtasks :=
              ixs.foldl (fun acc i => toggleList i acc) cr.suggested_subtasks } := by
  induction ixs with
  | nil => intro cr; rfl
  | cons i tl ih =>
      intro cr
      simp only [List.foldl_cons]
      rw [ih (toggleAt cr i)]
      rfl

/-! ## Claim theorem: candidate selection -/

/-- C9: toggling is a pure, local state transition: for an index in
range, `toggleSelection` flips the `selected` flag of exactly the
suggestion at that index (all its other fields and every other
suggestion unchanged, via the `get?` characterization), leaves every
other field of the result unchanged, issues no request; and every
selection subset — including all-off — is reachable by a sequence of
toggles. -/
theorem toggleSelection_pure (cr : TaskCrusherResponse) (i : Nat)
    (target : List Bool)
    (hi : i < cr.suggested_subtasks.length)
    (ht : target.length = cr.suggested_subtasks.length) :
    toggleSubtaskSelection (some cr) i = (.ok (some (toggleAt cr i)), []) ∧
    (toggleAt cr i).suggested_subtasks.get? i
      = (cr.suggested_subtasks.get? i).map
          (fun s => { s with selected := !s.selected }) ∧
    (∀ j, j ≠ i → (toggleAt cr i).suggested_subtasks.get? j
      = cr.suggested_subtasks.get? j) ∧
    (toggleAt cr i).main_task = cr.main_task ∧
    (toggleAt cr i).total_estimated_duration = cr.total_estimated_duration ∧
    (toggleAt cr i).completion_strategy = cr.completion_strategy ∧
    (toggleAt cr i).ai_confidence = cr.ai_confidence ∧
    ∃ ixs : List Nat,
      ixs.foldl toggleAt cr
        = { cr with suggested_subtasks :=
              setSelections target cr.suggested_subtasks } := by
  refine ⟨by simp [toggleSubtaskSelection, hi], toggleList_get?_self i _,
    fun j hj => toggleList_get?_other i j _ hj, rfl, rfl, rfl, rfl, ?_⟩
  obtain ⟨ixs, hixs⟩ := reach_setSelections cr.suggested_subtasks target ht
  exact ⟨ixs, by rw [foldl_toggleAt_eq, hixs]⟩

/-- Witness for C9 at the sample response, index 0, target all-off. -/
theorem toggleSelection_pure_witness :
    toggleSubtaskSelection (some sampleSelResponse) 0
      = (.ok (some (toggleAt sampleSelResponse 0)), []) ∧
    (toggleAt sampleSelResponse 0).suggested_subtasks.get? 0
      = (sampleSelResponse.suggested_subtasks.get? 0).map
          (fun s => { s with selected := !s.selected }) ∧
    (∀ j, j ≠ 0 → (toggleAt sampleSelResponse 0).suggested_subtasks.get? j
      = sampleSelResponse.suggested_subtasks.get? j) ∧
    (toggleAt sampleSelResponse 0).main_task = sampleSelResponse.main_task ∧
    (toggleAt sampleSelResponse 0).total_estimated_duration
      = sampleSelResponse.total_estimated_duration ∧
    (toggleAt sampleSelResponse 0).completion_strategy
      = sampleSelResponse.completion_strategy ∧
    (toggleAt sampleSelResponse 0).ai_confidence
      = sampleSelResponse.ai_confidence ∧
    ∃ ixs : List Nat,
      ixs.foldl toggleAt sampleSelResponse
        = { sampleSelResponse with suggested_subtasks :=
              (setSelections [false, false, false]
                sampleSelResponse.suggested_subtasks) } :=
  toggleSelection_pure sampleSelResponse 0 [false, false, false]
    (by decide) (by decide)

end TaskFlow
